import Mathlib

/-!
Verification development for the `zalgiris_matches` scraping/reconciliation
engine (`custom_components/zalgiris_matches/coordinator.py`).

The embedding models:
- naive Python `datetime` values (proleptic Gregorian calendar) and the
  `replace`-based year inference of `_guess_start_dt`;
- the cached match record dictionaries and the two merge operations
  (the schedule merge inside `_async_update_data` and the detail merge
  inside `_maybe_fetch_match_details`);
- the classification (`_classify`) and age pruning (`_save_store`) steps;
- the snapshot assembly of `_async_update_data`;
- the concrete regular-expression field parsers `_parse_start`,
  `_parse_scores` and `_parse_info_url`, implemented as executable
  matchers over character lists that follow the leftmost-match /
  greedy-with-backtracking semantics of the Python `re` patterns.
-/

namespace ZalgirisMatches

/-! ## Python naive datetimes

A `PDateTime` models a Python `datetime` (all values in the code share one
fixed timezone, so comparisons behave like naive ones).  Integer division
below is only applied to non-negative arguments (`year ≥ 1`, as Python's
`datetime.MINYEAR = 1`), where Lean and Python division agree. -/

structure PDateTime where
  year : Int
  month : Int
  day : Int
  hour : Int
  minute : Int
  second : Int
  usec : Int
deriving DecidableEq, Repr

/-- Gregorian leap-year test, as in Python `calendar.isleap`. -/
def isLeap (y : Int) : Bool :=
  (y % 4 == 0 && y % 100 != 0) || y % 400 == 0

/-- Number of days in month `m` of year `y`. -/
def daysInMonth (y m : Int) : Int :=
  if m = 2 then (if isLeap y then 29 else 28)
  else if m = 4 ∨ m = 6 ∨ m = 9 ∨ m = 11 then 30
  else 31

/-- Validity of a calendar date, mirroring the checks performed by the
Python `datetime` constructor (and hence by `datetime.replace`). -/
def validDate (y m d : Int) : Bool :=
  1 ≤ y && y ≤ 9999 && 1 ≤ m && m ≤ 12 && 1 ≤ d && d ≤ daysInMonth y m

/-- Validity of a wall-clock time, mirroring the Python `datetime`
constructor. -/
def validTime (hh mi ss us : Int) : Bool :=
  0 ≤ hh && hh ≤ 23 && 0 ≤ mi && mi ≤ 59 && 0 ≤ ss && ss ≤ 59 &&
  0 ≤ us && us ≤ 999999

def validDT (dt : PDateTime) : Bool :=
  validDate dt.year dt.month dt.day && validTime dt.hour dt.minute dt.second dt.usec

/-- Days in all years strictly before year `y` (Python
`datetime._days_before_year`). -/
def daysBeforeYear (y : Int) : Int :=
  365 * (y - 1) + (y - 1) / 4 - (y - 1) / 100 + (y - 1) / 400

/-- Cumulative day count before month `m` in a non-leap year. -/
def monthOffset (m : Int) : Int :=
  if m ≤ 1 then 0 else if m ≤ 2 then 31 else if m ≤ 3 then 59
  else if m ≤ 4 then 90 else if m ≤ 5 then 120 else if m ≤ 6 then 151
  else if m ≤ 7 then 181 else if m ≤ 8 then 212 else if m ≤ 9 then 243
  else if m ≤ 10 then 273 else if m ≤ 11 then 304 else 334

/-- Days in year `y` strictly before month `m` (Python
`datetime._days_before_month`). -/
def daysBeforeMonth (y m : Int) : Int :=
  monthOffset m + (if 2 < m && isLeap y then 1 else 0)

/-- Proleptic Gregorian ordinal of a date (Python `datetime.toordinal`). -/
def toOrdinal (dt : PDateTime) : Int :=
  daysBeforeYear dt.year + daysBeforeMonth dt.year dt.month + dt.day

/-- Microseconds on the absolute timeline.  Comparison of valid Python
datetimes coincides with comparison of this value. -/
def toMicro (dt : PDateTime) : Int :=
  (((toOrdinal dt * 24 + dt.hour) * 60 + dt.minute) * 60 + dt.second) * 1000000
    + dt.usec

/-- One day, in microseconds (`timedelta(days=1)`). -/
def usPerDay : Int := 86400000000

/-- Helper: `dt` with the year field replaced (no validation). -/
def setYear (dt : PDateTime) (y : Int) : PDateTime :=
  ⟨y, dt.month, dt.day, dt.hour, dt.minute, dt.second, dt.usec⟩

/-- Python `now.replace(month=m, day=d, hour=hh, minute=mi, second=0,
microsecond=0)`: validates the resulting datetime and raises `ValueError`
when it is not a real calendar datetime. -/
def pyReplaceMDHM (now : PDateTime) (m d hh mi : Int) : Except String PDateTime :=
  if validDate now.year m d && validTime hh mi 0 0 then
    .ok ⟨now.year, m, d, hh, mi, 0, 0⟩
  else .error "ValueError"

/-- Python `dt.replace(year=y)`: validates the resulting datetime. -/
def pyReplaceYear (dt : PDateTime) (y : Int) : Except String PDateTime :=
  if validDate y dt.month dt.day && validTime dt.hour dt.minute dt.second dt.usec
  then .ok (setYear dt y)
  else .error "ValueError"

/-- Source `_guess_start_dt(month, day, hour, minute)` from `coordinator.py`
(lines 83–92), with the ambient `_now()` made an explicit argument:

    dt = now.replace(month=month, day=day, hour=hour, minute=minute,
                     second=0, microsecond=0)
    if dt < (now - timedelta(days=180)):
        dt = dt.replace(year=now.year + 1)
    if dt > (now + timedelta(days=330)) and month < now.month:
        dt = dt.replace(year=now.year - 1)
    return dt

A `ValueError` raised by `replace` is modelled as `.error`. -/
def guessStartDt (now : PDateTime) (month day hour minute : Int) :
    Except String PDateTime :=
  match pyReplaceMDHM now month day hour minute with
  | .error e => .error e
  | .ok dt0 =>
    match (if toMicro dt0 < toMicro now - 180 * usPerDay
           then pyReplaceYear dt0 (now.year + 1)
           else .ok dt0) with
    | .error e => .error e
    | .ok dt1 =>
      if toMicro dt1 > toMicro now + 330 * usPerDay && month < now.month
      then pyReplaceYear dt1 (now.year - 1)
      else .ok dt1

/-- Modelled from the spec: the year-inference as §4.2 of the spec words it
— first combine month/day/hour/minute with the *current* year; if that
instant lies strictly more than 180 days in the past, move *it* to the
next year; then, if the resulting instant lies strictly more than 330 days
in the future while the parsed month is less than the current month, move
*it* back one year.  The difference with the source is that the source
writes `now.year + 1` and `now.year - 1` where the spec speaks of moving
the instant itself by one year. -/
def guessStartSpec (now : PDateTime) (month day hour minute : Int) :
    Except String PDateTime :=
  match pyReplaceMDHM now month day hour minute with
  | .error e => .error e
  | .ok dt0 =>
    match (if toMicro dt0 < toMicro now - 180 * usPerDay
           then pyReplaceYear dt0 (dt0.year + 1)
           else .ok dt0) with
    | .error e => .error e
    | .ok dt1 =>
      if toMicro dt1 > toMicro now + 330 * usPerDay && month < now.month
      then pyReplaceYear dt1 (dt1.year - 1)
      else .ok dt1

theorem daysBeforeYear_succ_le (y : Int) :
    daysBeforeYear (y + 1) ≤ daysBeforeYear y + 366 := by
  simp only [daysBeforeYear]
  omega

theorem daysBeforeMonth_succ_le (y m : Int) :
    daysBeforeMonth (y + 1) m ≤ daysBeforeMonth y m + 1 := by
  simp only [daysBeforeMonth]
  split <;> split <;> omega

theorem toMicro_setYear_succ_le (dt : PDateTime) :
    toMicro (setYear dt (dt.year + 1)) ≤ toMicro dt + 367 * usPerDay := by
  have h1 := daysBeforeYear_succ_le dt.year
  have h2 := daysBeforeMonth_succ_le dt.year dt.month
  simp only [toMicro, toOrdinal, setYear, usPerDay]
  omega

/-- C5: the year-inference first combines month/day/hour/minute with the
current year; if that instant lies strictly more than 180 days in the past
it is moved to the next year (exactly 180 days in the past is not moved,
the comparison being strict); then, if the resulting instant lies strictly
more than 330 days in the future and the parsed month is less than the
current month, it is moved back one year.  Formally: `_guess_start_dt`
coincides with the transformation worded exactly as in the spec
(`guessStartSpec`); in particular the source's `year=now.year - 1` in the
second step agrees with the spec's "moved back one year" because the
second condition can never fire on an instant already moved to the next
year. -/
theorem c5_year_inference (now : PDateTime) (month day hour minute : Int) :
    guessStartDt now month day hour minute = guessStartSpec now month day hour minute := by
  simp only [guessStartDt, guessStartSpec, pyReplaceMDHM]
  by_cases hv : (validDate now.year month day && validTime hour minute 0 0) = true
  · simp only [hv, if_true]
    by_cases hroll :
        toMicro ⟨now.year, month, day, hour, minute, 0, 0⟩ < toMicro now - 180 * usPerDay
    · simp only [if_pos hroll]
      simp only [pyReplaceYear]
      by_cases hv2 : (validDate (now.year + 1) month day && validTime hour minute 0 0) = true
      · simp only [hv2, if_true]
        have hb := toMicro_setYear_succ_le ⟨now.year, month, day, hour, minute, 0, 0⟩
        have hcond :
            ¬ toMicro (setYear ⟨now.year, month, day, hour, minute, 0, 0⟩ (now.year + 1)) >
              toMicro now + 330 * usPerDay := by
          simp only [usPerDay] at hb hroll ⊢
          omega
        simp [hcond]
      · simp [hv2]
    · simp only [if_neg hroll]
  · simp [hv]

/-! ## Match records and the two merge operations

A `MatchRecord` models the per-game dictionary built by
`_parse_match_from_window` and stored in `self._games`.  Every field is
optional, matching `dict.get` semantics (`None` for an absent key).  The
source serializes `start` as an ISO string and re-parses it with
`dt_util.parse_datetime`; since `isoformat` round-trips, the field is
modelled directly as an optional datetime, `none` standing for an absent
or unparseable value. -/

structure MatchRecord where
  game_id : Option String
  start : Option PDateTime
  league : Option String
  home : Option String
  away : Option String
  home_logo : Option String
  away_logo : Option String
  tv : Option String
  arena : Option String
  score_home : Option Int
  score_away : Option Int
  info_url : Option String
  tickets_url : Option String
deriving DecidableEq, Repr

/-- Python `\x7b**existing, **{k: v for k, v in parsed.items() if v is not None}}`
restricted to one field: a non-`None` parsed value overwrites, `None`
preserves the existing value. -/
def overlay {α : Type} (e p : Option α) : Option α :=
  match p with
  | some v => some v
  | none => e

/-- Python truthiness of an optional string (`None` and `""` are falsy). -/
def truthyStr (s : Option String) : Bool :=
  match s with
  | none => false
  | some v => !(v == "")

/-- The schedule merge of `_async_update_data` (coordinator.py lines
516–528): dict overlay of the non-`None` parsed fields over the existing
record, then the explicit score-keeping clauses, then the arena-preserving
clause (which tests Python truthiness, not `is not None`). -/
def mergeSchedule (existing parsed : MatchRecord) : MatchRecord :=
  let m : MatchRecord :=
    { game_id := overlay existing.game_id parsed.game_id
      start := overlay existing.start parsed.start
      league := overlay existing.league parsed.league
      home := overlay existing.home parsed.home
      away := overlay existing.away parsed.away
      home_logo := overlay existing.home_logo parsed.home_logo
      away_logo := overlay existing.away_logo parsed.away_logo
      tv := overlay existing.tv parsed.tv
      arena := overlay existing.arena parsed.arena
      score_home := overlay existing.score_home parsed.score_home
      score_away := overlay existing.score_away parsed.score_away
      info_url := overlay existing.info_url parsed.info_url
      tickets_url := overlay existing.tickets_url parsed.tickets_url }
  let m :=
    if existing.score_home.isSome && parsed.score_home == none
    then { m with score_home := existing.score_home } else m
  let m :=
    if existing.score_away.isSome && parsed.score_away == none
    then { m with score_away := existing.score_away } else m
  let m :=
    if truthyStr existing.arena && !truthyStr parsed.arena
    then { m with arena := existing.arena } else m
  m

/-- Python `game.get(k) in (None, "", "—", "-")` for a string field. -/
def isBlankStr (s : Option String) : Bool :=
  match s with
  | none => true
  | some v => v == "" || v == "—" || v == "-"

/-- One string field of the detail merge: skip a `None` parsed value,
otherwise fill in only when the existing value is blank. -/
def detailStr (g p : Option String) : Option String :=
  match p with
  | none => g
  | some v => if isBlankStr g then some v else g

/-- One score field of the detail merge: skip a `None` parsed value,
otherwise always refresh (the source's "Always refresh scores during
live" branch assigns unconditionally when the parsed value is
non-`None`). -/
def detailScore (g p : Option Int) : Option Int :=
  match p with
  | none => g
  | some v => some v

/-- The detail merge of `_maybe_fetch_match_details` (coordinator.py lines
464–471): only the listed eight fields are ever updated; `start`,
`league`, `info_url` and `tickets_url` are untouched. -/
def mergeDetail (game parsed : MatchRecord) : MatchRecord :=
  { game with
    home := detailStr game.home parsed.home
    away := detailStr game.away parsed.away
    home_logo := detailStr game.home_logo parsed.home_logo
    away_logo := detailStr game.away_logo parsed.away_logo
    tv := detailStr game.tv parsed.tv
    arena := detailStr game.arena parsed.arena
    score_home := detailScore game.score_home parsed.score_home
    score_away := detailScore game.score_away parsed.score_away }

/-! ## Classification and pruning -/

/-- Both scores present (`_classify`'s `has_score`). -/
def hasBothScores (g : MatchRecord) : Bool :=
  g.score_home.isSome && g.score_away.isSome

/-- Six hours in microseconds (`timedelta(hours=6)`). -/
def usSixHours : Int := 21600000000

/-- Membership test of the `upcoming` bucket: a parsed start strictly
after `now`. -/
def isUpcoming (now : PDateTime) (g : MatchRecord) : Bool :=
  match g.start with
  | none => false
  | some dt => toMicro now < toMicro dt

/-- Membership test of the `finished` bucket: a parsed start at or before
`now`, and either both scores known or the start strictly within the last
six hours. -/
def isFinished (now : PDateTime) (g : MatchRecord) : Bool :=
  match g.start with
  | none => false
  | some dt =>
    toMicro dt ≤ toMicro now &&
      (hasBothScores g || toMicro now - usSixHours < toMicro dt)

/-- Ascending comparison on the sort key `x.get("start") or ""`: a missing
start sorts as the empty string, i.e. before every parsed start (ISO
strings of the records compare lexicographically like instants since they
all carry the same fixed offset). -/
def startKeyLE (a b : MatchRecord) : Bool :=
  match a.start, b.start with
  | none, _ => true
  | some _, none => false
  | some x, some y => toMicro x ≤ toMicro y

/-- Source `_classify` (coordinator.py lines 473–495) on the cache's list of
records: one pass splits the records with a parseable start into the two
buckets, which are then sorted ascending (upcoming) and descending
(finished) by start. -/
def classify (now : PDateTime) (games : List MatchRecord) :
    List MatchRecord × List MatchRecord :=
  let upcoming := games.filter (isUpcoming now)
  let finished := games.filter (isFinished now)
  (upcoming.mergeSort startKeyLE, finished.mergeSort (fun a b => startKeyLE b a))

/-- Source `_save_store` pruning step (coordinator.py lines 322–341): drop a
record exactly when its start parses and is strictly before
`now - timedelta(days=store_days)`; a record whose start does not parse is
always kept. -/
def prune (now : PDateTime) (storeDays : Int)
    (games : List (String × MatchRecord)) : List (String × MatchRecord) :=
  games.filter fun gg =>
    match gg.2.start with
    | none => true
    | some dt => !(toMicro dt < toMicro now - storeDays * usPerDay)

/-! ## Snapshot assembly

`_async_update_data` returns a dict literal with exactly six keys; the
snapshot is modelled as the corresponding association list so that the
set of keys is part of the model. -/

/-- The diagnostic dict built by `_parse_schedule`. -/
structure ScheduleDebug where
  parse_mode : String
  links_found : Nat
  matches_found : Nat
  has_rungtynes : Bool
  has_uuid : Bool
  html_head : String
deriving DecidableEq, Repr

inductive SnapVal where
  | str : String → SnapVal
  | records : List MatchRecord → SnapVal
  | debug : ScheduleDebug → SnapVal
deriving DecidableEq, Repr

/-- The snapshot dict returned by `_async_update_data` (coordinator.py
lines 559–566), in source order. -/
def buildSnapshot (teamPath sourceUrl fetchedAt : String)
    (upcoming finished : List MatchRecord) (dbg : ScheduleDebug) :
    List (String × SnapVal) :=
  [("team_path", .str teamPath),
   ("source_url", .str sourceUrl),
   ("fetched_at", .str fetchedAt),
   ("upcoming", .records upcoming),
   ("finished", .records finished),
   ("debug", .debug dbg)]

/-- Python `data.get(key)` on the snapshot, as the sensors read it
(sensor.py, `native_value`). -/
def snapshotGet (snap : List (String × SnapVal)) (key : String) : Option SnapVal :=
  match snap with
  | [] => none
  | (k, v) :: rest => if k == key then some v else snapshotGet rest key

/-! ## Character-level matchers for the concrete regexes

The field parsers below are executable translations of the Python `re`
patterns, following `re.search`'s leftmost-match rule and the
greedy-with-backtracking semantics of each quantifier.  Windows are
character lists. -/

/-- Python regex `\s`, restricted to the whitespace forms that occur in
these pages (ASCII whitespace and the no-break space). -/
def isSpaceChar (c : Char) : Bool :=
  c == ' ' || c == '\t' || c == '\n' || c == '\r' || c == '\x0b' ||
  c == '\x0c' || c == '\u00A0'

def isUpperChar (c : Char) : Bool := 'A' ≤ c && c ≤ 'Z'

/-- Python regex `\w` (ASCII range). -/
def isWordChar (c : Char) : Bool := c.isAlphanum || c == '_'

def toLowerAscii (c : Char) : Char :=
  if 'A' ≤ c && c ≤ 'Z' then Char.ofNat (c.toNat + 32) else c

/-- Case-sensitive literal match; returns the remainder on success. -/
def litMatch : List Char → List Char → Option (List Char)
  | [], cs => some cs
  | _ :: _, [] => none
  | l :: ls, c :: cs => if l == c then litMatch ls cs else none

/-- Case-insensitive (`re.IGNORECASE`) literal match. -/
def ciLit : List Char → List Char → Option (List Char)
  | [], cs => some cs
  | _ :: _, [] => none
  | l :: ls, c :: cs =>
    if toLowerAscii l == toLowerAscii c then ciLit ls cs else none

/-- Two decimal digits (`\d{2}`), returning their value and the rest. -/
def digit2 : List Char → Option (Int × List Char)
  | c1 :: c2 :: rest =>
    if c1.isDigit && c2.isDigit then
      some ((((c1.toNat - 48) * 10 + (c2.toNat - 48) : Nat) : Int), rest)
    else none
  | _ => none

/-- Python `str.strip()` on a token. -/
def stripToken (cs : List Char) : List Char :=
  ((cs.dropWhile isSpaceChar).reverse.dropWhile isSpaceChar).reverse

/-! ### `_parse_start`'s two patterns

`START_RE = ([A-Z]{1,3})\s*,\s*(\d{2})-(\d{2})\s*,\s*(\d{2}):(\d{2})` and
the fallback `\b(\d{2})-(\d{2})\s*,\s*(\d{2}):(\d{2})\b`. -/

/-- The tail of `START_RE` after the weekday group:
`\s*,\s*(\d{2})-(\d{2})\s*,\s*(\d{2}):(\d{2})`. -/
def matchStartTail (cs : List Char) : Option (Int × Int × Int × Int) :=
  match (cs.dropWhile isSpaceChar) with
  | ',' :: cs1 =>
    match digit2 (cs1.dropWhile isSpaceChar) with
    | some (mo, cs2) =>
      match cs2 with
      | '-' :: cs3 =>
        match digit2 cs3 with
        | some (da, cs4) =>
          match (cs4.dropWhile isSpaceChar) with
          | ',' :: cs5 =>
            match digit2 (cs5.dropWhile isSpaceChar) with
            | some (hh, cs6) =>
              match cs6 with
              | ':' :: cs7 =>
                match digit2 cs7 with
                | some (mi, _) => some (mo, da, hh, mi)
                | none => none
              | _ => none
            | none => none
          | _ => none
        | none => none
      | _ => none
    | none => none
  | _ => none

/-- Exactly `n` uppercase letters (`[A-Z]{n}`), returning the rest. -/
def takeUppers : Nat → List Char → Option (List Char)
  | 0, cs => some cs
  | _ + 1, [] => none
  | n + 1, c :: cs => if isUpperChar c then takeUppers n cs else none

/-- One attempt of `START_RE` at the current position: the weekday group
`[A-Z]{1,3}` is greedy, so lengths 3, 2, 1 are tried in that order. -/
def matchStartAt (cs : List Char) : Option (Int × Int × Int × Int) :=
  match (match takeUppers 3 cs with
         | some rest => matchStartTail rest
         | none => none) with
  | some r => some r
  | none =>
    match (match takeUppers 2 cs with
           | some rest => matchStartTail rest
           | none => none) with
    | some r => some r
    | none =>
      match takeUppers 1 cs with
      | some rest => matchStartTail rest
      | none => none

/-- Search of `START_RE`: leftmost successful attempt. -/
def findStart1 : List Char → Option (Int × Int × Int × Int)
  | [] => none
  | c :: cs =>
    match matchStartAt (c :: cs) with
    | some r => some r
    | none => findStart1 cs

/-- One attempt of the fallback pattern at the current position (the
leading `\b` has been checked by the caller; the trailing `\b` holds when
the next character is absent or not a word character). -/
def matchBareAt (cs : List Char) : Option (Int × Int × Int × Int) :=
  match digit2 cs with
  | some (mo, cs1) =>
    match cs1 with
    | '-' :: cs2 =>
      match digit2 cs2 with
      | some (da, cs3) =>
        match (cs3.dropWhile isSpaceChar) with
        | ',' :: cs4 =>
          match digit2 (cs4.dropWhile isSpaceChar) with
          | some (hh, cs5) =>
            match cs5 with
            | ':' :: cs6 =>
              match digit2 cs6 with
              | some (mi, rest) =>
                match rest with
                | [] => some (mo, da, hh, mi)
                | d :: _ => if isWordChar d then none else some (mo, da, hh, mi)
              | none => none
            | _ => none
          | none => none
        | _ => none
      | none => none
    | _ => none
  | none => none

/-- Search for the fallback pattern, tracking the previous character for
the leading word boundary (the first matched character is a digit, so the
boundary holds exactly when the previous character is absent or not a
word character). -/
def findStart2 (prev : Option Char) : List Char → Option (Int × Int × Int × Int)
  | [] => none
  | c :: cs =>
    let boundaryOk := match prev with
      | none => true
      | some p => !isWordChar p
    match (if boundaryOk then matchBareAt (c :: cs) else none) with
    | some r => some r
    | none => findStart2 (some c) cs

/-- Source `_parse_start` (coordinator.py lines 220–234) combined with
`_guess_start_dt`: try `START_RE`, then the bare fallback; a failed match
is `.ok none`; a `ValueError` escaping from `_guess_start_dt`'s
`datetime.replace` is `.error`. -/
def parseStart (now : PDateTime) (window : List Char) :
    Except String (Option PDateTime) :=
  match findStart1 window with
  | some (mo, da, hh, mi) =>
    match guessStartDt now mo da hh mi with
    | .ok dt => .ok (some dt)
    | .error e => .error e
  | none =>
    match findStart2 none window with
    | some (mo, da, hh, mi) =>
      match guessStartDt now mo da hh mi with
      | .ok dt => .ok (some dt)
      | .error e => .error e
    | none => .ok none

/-! ### `_parse_scores`' two patterns

`SCORE_RE = tabular-nums[^>]*>\s*([^<]{1,3})\s*</p>` and
`SCORE_ESC_RE = tabular-nums\",\"children\":\"([^\\"]{1,3})`, both
`re.IGNORECASE`, consumed with `findall` (non-overlapping, scanning
resumes at the end of each match). -/

/-- One length attempt for the group `([^<]{1,3})` followed by
`\s*</p>`: the group takes exactly `g` non-`<` characters, then maximal
whitespace, then the literal `</p>`. -/
def tryGroupLen (g : Nat) (cs : List Char) : Option (List Char × List Char) :=
  let tok := cs.take g
  if tok.length == g && tok.all (fun c => c != '<') then
    match ciLit "</p>".toList ((cs.drop g).dropWhile isSpaceChar) with
    | some rest => some (tok, rest)
    | none => none
  else none

/-- The greedy group `([^<]{1,3})`: lengths 3, 2, 1 in that order. -/
def tryGroup (cs : List Char) : Option (List Char × List Char) :=
  match tryGroupLen 3 cs with
  | some r => some r
  | none =>
    match tryGroupLen 2 cs with
    | some r => some r
    | none => tryGroupLen 1 cs

/-- The greedy `\s*` before the group: backtracks from `k` consumed
whitespace characters down to zero. -/
def tryWs : Nat → List Char → Option (List Char × List Char)
  | 0, cs => tryGroup cs
  | k + 1, cs =>
    match tryGroup (cs.drop (k + 1)) with
    | some r => some r
    | none => tryWs k cs

/-- One attempt of `SCORE_RE` at the current position: the literal
`tabular-nums`, the deterministic `[^>]*>` (maximal non-`>` run, then
`>`), then the backtracking `\s*` and group. -/
def matchScoreAt (cs : List Char) : Option (List Char × List Char) :=
  match ciLit "tabular-nums".toList cs with
  | none => none
  | some cs1 =>
    match cs1.dropWhile (fun c => c != '>') with
    | [] => none
    | c :: cs3 =>
      if c = '>' then tryWs (cs3.takeWhile isSpaceChar).length cs3 else none

theorem ciLit_length {lit cs rest : List Char} (h : ciLit lit cs = some rest) :
    rest.length + lit.length = cs.length := by
  induction lit generalizing cs with
  | nil =>
    simp only [ciLit] at h
    simp [← Option.some_inj.mp h]
  | cons l ls ih =>
    match cs with
    | [] => simp [ciLit] at h
    | c :: cs1 =>
      simp only [ciLit] at h
      by_cases hc : (toLowerAscii l == toLowerAscii c) = true
      · simp only [hc, if_true] at h
        have := ih h
        simp only [List.length_cons]
        omega
      · simp [hc] at h

theorem dropWhileLenLe (p : Char → Bool) (l : List Char) :
    (l.dropWhile p).length ≤ l.length := by
  induction l with
  | nil => simp [List.dropWhile]
  | cons c cs ih =>
    cases hp : p c <;> simp [List.dropWhile, hp] <;> try omega

theorem tryGroupLen_length {g : Nat} {cs tok rest : List Char}
    (h : tryGroupLen g cs = some (tok, rest)) : rest.length < cs.length := by
  simp only [tryGroupLen] at h
  split at h
  · split at h
    next rest1 hlit =>
      have h1 := ciLit_length hlit
      have h2 := dropWhileLenLe isSpaceChar (cs.drop g)
      have h3 : (cs.drop g).length ≤ cs.length := by
        simp only [List.length_drop]; omega
      have h4 : rest1 = rest := by
        simp only [Option.some_inj, Prod.mk.injEq] at h
        exact h.2
      have h5 : ("</p>".toList).length = 4 := rfl
      rw [h4] at h1
      omega
    next => exact absurd h (by simp)
  · exact absurd h (by simp)

theorem tryGroup_length {cs tok rest : List Char}
    (h : tryGroup cs = some (tok, rest)) : rest.length < cs.length := by
  simp only [tryGroup] at h
  match h3 : tryGroupLen 3 cs with
  | some (t1, r1) =>
    rw [h3] at h
    have heq : t1 = tok ∧ r1 = rest := by simpa using h
    exact heq.2 ▸ tryGroupLen_length h3
  | none =>
    rw [h3] at h
    match h2 : tryGroupLen 2 cs with
    | some (t1, r1) =>
      rw [h2] at h
      have heq : t1 = tok ∧ r1 = rest := by simpa using h
      exact heq.2 ▸ tryGroupLen_length h2
    | none =>
      rw [h2] at h
      exact tryGroupLen_length h

theorem tryWs_length {k : Nat} {cs tok rest : List Char}
    (h : tryWs k cs = some (tok, rest)) : rest.length < cs.length := by
  induction k with
  | zero => exact tryGroup_length h
  | succ k ih =>
    simp only [tryWs] at h
    match hg : tryGroup (cs.drop (k + 1)) with
    | some (t1, r1) =>
      rw [hg] at h
      have heq : t1 = tok ∧ r1 = rest := by simpa using h
      have h1 := tryGroup_length hg
      have h2 : (cs.drop (k + 1)).length ≤ cs.length := by
        simp only [List.length_drop]; omega
      exact heq.2 ▸ Nat.lt_of_lt_of_le h1 h2
    | none =>
      rw [hg] at h
      exact ih h

theorem matchScoreAt_length {cs tok rest : List Char}
    (h : matchScoreAt cs = some (tok, rest)) : rest.length < cs.length := by
  simp only [matchScoreAt] at h
  match hlit : ciLit "tabular-nums".toList cs with
  | none => rw [hlit] at h; exact absurd h (by simp)
  | some cs1 =>
    rw [hlit] at h
    simp only [] at h
    have h1 := ciLit_length hlit
    have h3 := dropWhileLenLe (fun c => c != '>') cs1
    have h5 : ("tabular-nums".toList).length = 12 := rfl
    match hdrop : cs1.dropWhile (fun c => c != '>') with
    | [] => rw [hdrop] at h; exact absurd h (by simp)
    | c :: cs3 =>
      rw [hdrop] at h
      rw [hdrop] at h3
      simp only [] at h
      split at h
      · have h2 := tryWs_length h
        simp only [List.length_cons] at h3
        omega
      · exact absurd h (by simp)

/-- Findall of `SCORE_RE`, fuelled: scan left to right; after a hit, resume
at the end of the whole match (non-overlapping), otherwise advance one
character.  Every step strictly shortens the text
(`matchScoreAt_length`), so `fuel = cs.length` can never run out; the
fuel-adequacy theorem below makes this precise. -/
def findallScoreAux (fuel : Nat) (cs : List Char) : List (List Char) :=
  match fuel with
  | 0 => []
  | fuel + 1 =>
    match matchScoreAt cs with
    | some (tok, rest) => tok :: findallScoreAux fuel rest
    | none =>
      match cs with
      | [] => []
      | _ :: t => findallScoreAux fuel t

def findallScore1 (cs : List Char) : List (List Char) :=
  findallScoreAux cs.length cs

theorem findallScoreAux_congr :
    ∀ (n : Nat) (cs : List Char), cs.length ≤ n →
      ∀ f1 f2, cs.length ≤ f1 → cs.length ≤ f2 →
        findallScoreAux f1 cs = findallScoreAux f2 cs := by
  intro n
  induction n with
  | zero =>
    intro cs hn f1 f2 h1 h2
    match cs with
    | [] =>
      match f1, f2 with
      | 0, 0 => rfl
      | 0, _ + 1 => rfl
      | _ + 1, 0 => rfl
      | _ + 1, _ + 1 => rfl
  | succ n ih =>
    intro cs hn f1 f2 h1 h2
    match cs with
    | [] =>
      match f1, f2 with
      | 0, 0 => rfl
      | 0, _ + 1 => rfl
      | _ + 1, 0 => rfl
      | _ + 1, _ + 1 => rfl
    | c :: t =>
      match f1, f2 with
      | g1 + 1, g2 + 1 =>
        simp only [findallScoreAux]
        match hm : matchScoreAt (c :: t) with
        | some (tok, rest) =>
          have hlen := matchScoreAt_length hm
          simp only [List.length_cons] at hn h1 h2 hlen
          exact congrArg (tok :: ·)
            (ih rest (by omega) g1 g2 (by omega) (by omega))
        | none =>
          simp only [List.length_cons] at hn h1 h2
          exact ih t (by omega) g1 g2 (by omega) (by omega)

/-- The literal of `SCORE_ESC_RE` before its group: the escaped-JSON text
`tabular-nums\",\"children\":\"`. -/
def scoreEscLit : List Char := "tabular-nums\\\",\\\"children\\\":\\\"".toList

/-- One attempt of `SCORE_ESC_RE` at the current position: the literal,
then the greedy group `([^\\"]{1,3})` — up to three characters that are
neither a backslash nor a quote, at least one. -/
def matchScoreEscAt (cs : List Char) : Option (List Char × List Char) :=
  match ciLit scoreEscLit cs with
  | none => none
  | some cs1 =>
    let tok := (cs1.takeWhile (fun c => c != '\\' && c != '"')).take 3
    if tok.isEmpty then none else some (tok, cs1.drop tok.length)

theorem takeWhileLenLe (p : Char → Bool) (l : List Char) :
    (l.takeWhile p).length ≤ l.length := by
  induction l with
  | nil => simp [List.takeWhile]
  | cons c cs ih =>
    cases hp : p c <;> simp [List.takeWhile, hp] <;> try omega

theorem matchScoreEscAt_length {cs tok rest : List Char}
    (h : matchScoreEscAt cs = some (tok, rest)) : rest.length < cs.length := by
  simp only [matchScoreEscAt] at h
  match hlit : ciLit scoreEscLit cs with
  | none => rw [hlit] at h; exact absurd h (by simp)
  | some cs1 =>
    rw [hlit] at h
    simp only [] at h
    have h1 := ciLit_length hlit
    have h5 : scoreEscLit.length = 30 := rfl
    split at h
    · exact absurd h (by simp)
    · have h4 : rest = cs1.drop ((cs1.takeWhile (fun c => c != '\\' && c != '"')).take 3).length := by
        simp only [Option.some_inj, Prod.mk.injEq] at h
        exact h.2.symm
      have h6 : (cs1.drop ((cs1.takeWhile (fun c => c != '\\' && c != '"')).take 3).length).length ≤ cs1.length := by
        simp only [List.length_drop]; omega
      rw [h4]
      omega

/-- Findall of `SCORE_ESC_RE`, fuelled like `findallScoreAux`. -/
def findallScoreEscAux (fuel : Nat) (cs : List Char) : List (List Char) :=
  match fuel with
  | 0 => []
  | fuel + 1 =>
    match matchScoreEscAt cs with
    | some (tok, rest) => tok :: findallScoreEscAux fuel rest
    | none =>
      match cs with
      | [] => []
      | _ :: t => findallScoreEscAux fuel t

def findallScoreEsc (cs : List Char) : List (List Char) :=
  findallScoreEscAux cs.length cs

theorem findallScoreEscAux_congr :
    ∀ (n : Nat) (cs : List Char), cs.length ≤ n →
      ∀ f1 f2, cs.length ≤ f1 → cs.length ≤ f2 →
        findallScoreEscAux f1 cs = findallScoreEscAux f2 cs := by
  intro n
  induction n with
  | zero =>
    intro cs hn f1 f2 h1 h2
    match cs with
    | [] =>
      match f1, f2 with
      | 0, 0 => rfl
      | 0, _ + 1 => rfl
      | _ + 1, 0 => rfl
      | _ + 1, _ + 1 => rfl
  | succ n ih =>
    intro cs hn f1 f2 h1 h2
    match cs with
    | [] =>
      match f1, f2 with
      | 0, 0 => rfl
      | 0, _ + 1 => rfl
      | _ + 1, 0 => rfl
      | _ + 1, _ + 1 => rfl
    | c :: t =>
      match f1, f2 with
      | g1 + 1, g2 + 1 =>
        simp only [findallScoreEscAux]
        match hm : matchScoreEscAt (c :: t) with
        | some (tok, rest) =>
          have hlen := matchScoreEscAt_length hm
          simp only [List.length_cons] at hn h1 h2 hlen
          exact congrArg (tok :: ·)
            (ih rest (by omega) g1 g2 (by omega) (by omega))
        | none =>
          simp only [List.length_cons] at hn h1 h2
          exact ih t (by omega) g1 g2 (by omega) (by omega)

/-- The raw token list of `_parse_scores` (coordinator.py lines 165–186):
both findall passes, each token stripped. -/
def rawScoreTokens (w : List Char) : List (List Char) :=
  (findallScore1 w ++ findallScoreEsc w).map stripToken

/-- The order-keeping deduplication loop of `_parse_scores` (`cleaned`). -/
def dedupTokens (cleaned : List (List Char)) : List (List Char) → List (List Char)
  | [] => cleaned
  | r :: rest =>
    if r ∈ cleaned then dedupTokens cleaned rest
    else dedupTokens (cleaned ++ [r]) rest

/-- Python `str.isdigit` restricted to the ASCII digits occurring here. -/
def isDigitToken (cs : List Char) : Bool :=
  !cs.isEmpty && cs.all Char.isDigit

/-- Python `int()` on a digit string. -/
def tokenToInt (cs : List Char) : Int :=
  cs.foldl (fun a c => a * 10 + (((c.toNat - 48 : Nat)) : Int)) 0

/-- Python token cleaning `r.replace(" ", " ")`. -/
def nbspToSpace (cs : List Char) : List Char :=
  cs.map (fun c => if c = '\u00A0' then ' ' else c)

/-- The number-collecting loop of `_parse_scores`: clean each token,
keep the numeric ones, stop as soon as two are found. -/
def collectNums : List (List Char) → List Int → List Int
  | [], nums => nums
  | r :: rest, nums =>
    let r2 := stripToken (nbspToSpace r)
    let nums1 := if isDigitToken r2 then nums ++ [tokenToInt r2] else nums
    if nums1.length ≥ 2 then nums1 else collectNums rest nums1

/-- Source `_parse_scores` (coordinator.py lines 165–186). -/
def parseScores (w : List Char) : Option Int × Option Int :=
  let cleaned := dedupTokens [] (rawScoreTokens w)
  let nums := collectNums cleaned []
  match nums with
  | a :: b :: _ => (some a, some b)
  | _ => (none, none)

/-! ### `_parse_info_url`'s two patterns

`href=\"([^\"]*/rungtynes/<gid>[^\"]*)\"` and the escaped-JSON variant
`\\\"href\\\":\\\"([^\\\"]*/rungtynes/<gid>[^\\\"]*)\\\"` (both
case-sensitive; `re.escape` makes the game id a literal).  At a given
`href="` occurrence the candidate group is the maximal quote-free run up
to the closing quote; by greediness the captured group is that whole run,
and the attempt succeeds exactly when the run contains the needle
`/rungtynes/<gid>`.  `re.search` takes the leftmost such occurrence. -/

/-- Whether the first list is a prefix of the second. -/
def isPrefixList : List Char → List Char → Bool
  | [], _ => true
  | _ :: _, [] => false
  | a :: as, b :: bs => a == b && isPrefixList as bs

/-- Whether the needle occurs as a contiguous substring of the run. -/
def runHasNeedle (needle : List Char) : List Char → Bool
  | [] => needle.isEmpty
  | c :: cs => isPrefixList needle (c :: cs) || runHasNeedle needle cs

/-- Search for `href="<run>"` whose run contains the needle; returns the
first such run. -/
def findHrefRun (needle : List Char) : List Char → Option (List Char)
  | [] => none
  | c :: cs =>
    match litMatch "href=\"".toList (c :: cs) with
    | some rest =>
      let run := rest.takeWhile (fun d => d != '"')
      if (rest.drop run.length).head? = some '"' && runHasNeedle needle run
      then some run
      else findHrefRun needle cs
    | none => findHrefRun needle cs

/-- Search for `\"href\":\"<run>\"` (escaped-JSON dialect) whose
backslash- and quote-free run contains the needle. -/
def findEscHrefRun (needle : List Char) : List Char → Option (List Char)
  | [] => none
  | c :: cs =>
    match litMatch "\\\"href\\\":\\\"".toList (c :: cs) with
    | some rest =>
      let run := rest.takeWhile (fun d => d != '\\' && d != '"')
      match rest.drop run.length with
      | '\\' :: '"' :: _ =>
        if runHasNeedle needle run then some run else findEscHrefRun needle cs
      | _ => findEscHrefRun needle cs
    | none => findEscHrefRun needle cs

/-- Python `str.replace(pat, rep)` for a non-empty pattern: replace every
non-overlapping occurrence, scanning left to right.  Fuelled: every step
consumes at least one character, so `fuel = s.length` can never run out
(`replaceSubAux_congr` below). -/
def replaceSubAux (pat rep : List Char) (fuel : Nat) (s : List Char) : List Char :=
  match fuel with
  | 0 => s
  | fuel + 1 =>
    match s with
    | [] => []
    | c :: cs =>
      if isPrefixList pat (c :: cs) && !pat.isEmpty then
        rep ++ replaceSubAux pat rep fuel (List.drop (pat.length - 1) cs)
      else c :: replaceSubAux pat rep fuel cs

def replaceSub (pat rep : List Char) (s : List Char) : List Char :=
  replaceSubAux pat rep s.length s

theorem replaceSubAux_congr (pat rep : List Char) :
    ∀ (n : Nat) (s : List Char), s.length ≤ n →
      ∀ f1 f2, s.length ≤ f1 → s.length ≤ f2 →
        replaceSubAux pat rep f1 s = replaceSubAux pat rep f2 s := by
  intro n
  induction n with
  | zero =>
    intro s hn f1 f2 h1 h2
    match s with
    | [] =>
      match f1, f2 with
      | 0, 0 => rfl
      | 0, _ + 1 => rfl
      | _ + 1, 0 => rfl
      | _ + 1, _ + 1 => rfl
  | succ n ih =>
    intro s hn f1 f2 h1 h2
    match s with
    | [] =>
      match f1, f2 with
      | 0, 0 => rfl
      | 0, _ + 1 => rfl
      | _ + 1, 0 => rfl
      | _ + 1, _ + 1 => rfl
    | c :: cs =>
      match f1, f2 with
      | g1 + 1, g2 + 1 =>
        simp only [replaceSubAux, List.length_cons] at hn h1 h2 ⊢
        split
        next hpre =>
          have hlen := List.length_drop (pat.length - 1) cs
          have hpat : pat.isEmpty = false := by
            rcases Bool.and_eq_true .. |>.mp hpre with ⟨-, hne⟩
            simp only [Bool.not_eq_true'] at hne
            exact hne
          exact congrArg (rep ++ ·)
            (ih (List.drop (pat.length - 1) cs) (by omega) g1 g2
              (by omega) (by omega))
        next =>
          exact congrArg (c :: ·) (ih cs (by omega) g1 g2 (by omega) (by omega))

/-- Source `_safe_unescape` (coordinator.py lines 102–109): the four chained
`str.replace` calls, in source order. -/
def safeUnescape (s : List Char) : List Char :=
  replaceSub "&#47;".toList "/".toList
    (replaceSub "&#x2F;".toList "/".toList
      (replaceSub "&quot;".toList "\"".toList
        (replaceSub "&amp;".toList "&".toList s)))

/-- Python `urllib.parse.urljoin(BASE_URL, u)` with
`BASE_URL = "https://zalgiris.lt"`, modelled for the reference shapes that
occur here: an absolute URL is returned unchanged, otherwise the
reference is resolved against the origin (whose own path is empty). -/
def urljoinBase (u : List Char) : String :=
  if isPrefixList "http://".toList u || isPrefixList "https://".toList u then
    String.mk u
  else if isPrefixList "/".toList u then
    String.mk ("https://zalgiris.lt".toList ++ u)
  else
    String.mk ("https://zalgiris.lt/".toList ++ u)

/-- Source `_parse_info_url` (coordinator.py lines 245–254): the first
HTML-dialect anchor containing `/rungtynes/<gid>`, else the first
escaped-dialect anchor, else the synthesized canonical URL. -/
def parseInfoUrl (gameId : String) (window : List Char) : String :=
  let needle := ("/rungtynes/" ++ gameId).toList
  match findHrefRun needle window with
  | some run => urljoinBase (safeUnescape run)
  | none =>
    match findEscHrefRun needle window with
    | some run => urljoinBase (safeUnescape run)
    | none => urljoinBase ("/rungtynes/" ++ gameId).toList

/-! ## Merge characterization helpers -/

/-- The net effect of the schedule merge on the `arena` field: the
truthiness-based clause keeps a truthy existing arena whenever the parsed
arena is falsy (`None` or `""`). -/
def arenaKeep (e p : Option String) : Option String :=
  if truthyStr e && !truthyStr p then e else overlay e p

/-- Field-wise characterization of the schedule merge.  The explicit
score-keeping clauses of the source are redundant with the dict overlay
(a `None` parsed value never enters the overlay), so every field reduces
to `overlay` — except `arena`, whose clause tests truthiness rather than
`is not None`. -/
theorem mergeSchedule_eq (e p : MatchRecord) :
    mergeSchedule e p =
      { game_id := overlay e.game_id p.game_id
        start := overlay e.start p.start
        league := overlay e.league p.league
        home := overlay e.home p.home
        away := overlay e.away p.away
        home_logo := overlay e.home_logo p.home_logo
        away_logo := overlay e.away_logo p.away_logo
        tv := overlay e.tv p.tv
        arena := arenaKeep e.arena p.arena
        score_home := overlay e.score_home p.score_home
        score_away := overlay e.score_away p.score_away
        info_url := overlay e.info_url p.info_url
        tickets_url := overlay e.tickets_url p.tickets_url } := by
  simp only [mergeSchedule, arenaKeep]
  split <;> split <;> split <;> simp_all [overlay]

theorem overlay_again {α : Type} (e p : Option α) :
    overlay (overlay e p) p = overlay e p := by
  cases p <;> simp [overlay]

theorem arenaKeep_again (e p : Option String) :
    arenaKeep (arenaKeep e p) p = arenaKeep e p := by
  cases p with
  | none => simp [arenaKeep, overlay]
  | some s =>
    by_cases hs : s = ""
    · subst hs
      simp only [arenaKeep, truthyStr, overlay]
      split <;> simp_all
    · simp [arenaKeep, truthyStr, overlay, hs]

/-- C1: for every cached record and both merges (schedule and detail), a
non-null `score_home`/`score_away` survives a merge whose parsed value for
that field is null, unchanged; and after any merge the field is still
non-null (a later merge can only overwrite it with another non-null
value). -/
theorem c1_score_monotonic :
    (∀ e p : MatchRecord, e.score_home.isSome = true →
      (mergeSchedule e p).score_home.isSome = true ∧
        (p.score_home = none → (mergeSchedule e p).score_home = e.score_home)) ∧
    (∀ e p : MatchRecord, e.score_away.isSome = true →
      (mergeSchedule e p).score_away.isSome = true ∧
        (p.score_away = none → (mergeSchedule e p).score_away = e.score_away)) ∧
    (∀ e p : MatchRecord, e.score_home.isSome = true →
      (mergeDetail e p).score_home.isSome = true ∧
        (p.score_home = none → (mergeDetail e p).score_home = e.score_home)) ∧
    (∀ e p : MatchRecord, e.score_away.isSome = true →
      (mergeDetail e p).score_away.isSome = true ∧
        (p.score_away = none → (mergeDetail e p).score_away = e.score_away)) := by
  refine ⟨?_, ?_, ?_, ?_⟩ <;> intro e p he <;>
    first
      | (rw [mergeSchedule_eq]
         constructor
         · cases hp : p.score_home <;> cases hq : p.score_away <;> simp_all [overlay]
         · intro hp <;> simp_all [overlay])
      | (constructor
         · cases hp : p.score_home <;> cases hq : p.score_away <;>
             simp_all [mergeDetail, detailScore]
         · intro hp <;> simp_all [mergeDetail, detailScore])

/-- C1 witness: concrete records with known scores and an all-null parse. -/
theorem c1_score_monotonic_witness :
    (mergeSchedule
        ⟨some "g", none, none, none, none, none, none, none, none, some 80, some 75, none, none⟩
        ⟨none, none, none, none, none, none, none, none, none, none, none, none, none⟩).score_home
      = some 80 ∧
    (mergeSchedule
        ⟨some "g", none, none, none, none, none, none, none, none, some 80, some 75, none, none⟩
        ⟨none, none, none, none, none, none, none, none, none, none, none, none, none⟩).score_away
      = some 75 ∧
    (mergeDetail
        ⟨some "g", none, none, none, none, none, none, none, none, some 80, some 75, none, none⟩
        ⟨none, none, none, none, none, none, none, none, none, none, none, none, none⟩).score_home
      = some 80 ∧
    (mergeDetail
        ⟨some "g", none, none, none, none, none, none, none, none, some 80, some 75, none, none⟩
        ⟨none, none, none, none, none, none, none, none, none, none, none, none, none⟩).score_away
      = some 75 :=
  ⟨(c1_score_monotonic.1
      ⟨some "g", none, none, none, none, none, none, none, none, some 80, some 75, none, none⟩
      ⟨none, none, none, none, none, none, none, none, none, none, none, none, none⟩ rfl).2 rfl,
   (c1_score_monotonic.2.1
      ⟨some "g", none, none, none, none, none, none, none, none, some 80, some 75, none, none⟩
      ⟨none, none, none, none, none, none, none, none, none, none, none, none, none⟩ rfl).2 rfl,
   (c1_score_monotonic.2.2.1
      ⟨some "g", none, none, none, none, none, none, none, none, some 80, some 75, none, none⟩
      ⟨none, none, none, none, none, none, none, none, none, none, none, none, none⟩ rfl).2 rfl,
   (c1_score_monotonic.2.2.2
      ⟨some "g", none, none, none, none, none, none, none, none, some 80, some 75, none, none⟩
      ⟨none, none, none, none, none, none, none, none, none, none, none, none, none⟩ rfl).2 rfl⟩

/-- C2 counterexample: the claim says every non-null parsed value
overwrites, but a non-null *empty* parsed `arena` does not overwrite a
truthy existing arena — the source's clause tests Python truthiness, so
the merged arena stays `"Arena"` instead of becoming `""`. -/
theorem c2_counterexample :
    (mergeSchedule
        ⟨some "g", none, none, none, none, none, none, none, some "Arena", none, none, none, none⟩
        ⟨some "g", none, none, none, none, none, none, none, some "", none, none, none, none⟩).arena
      = some "Arena" ∧
    (some "" : Option String).isSome = true ∧
    some "Arena" ≠ (some "" : Option String) := by
  refine ⟨?_, rfl, by decide⟩
  rw [mergeSchedule_eq]
  decide

/-- C2 (amended): for every field of the schedule merge, a non-null
parsed value overwrites and a null parsed value preserves the existing
value — except `arena`, where a falsy parsed value (null *or* the empty
string) preserves a truthy existing arena. -/
theorem c2_schedule_merge_fields (e p : MatchRecord) :
    mergeSchedule e p =
      { game_id := overlay e.game_id p.game_id
        start := overlay e.start p.start
        league := overlay e.league p.league
        home := overlay e.home p.home
        away := overlay e.away p.away
        home_logo := overlay e.home_logo p.home_logo
        away_logo := overlay e.away_logo p.away_logo
        tv := overlay e.tv p.tv
        arena := arenaKeep e.arena p.arena
        score_home := overlay e.score_home p.score_home
        score_away := overlay e.score_away p.score_away
        info_url := overlay e.info_url p.info_url
        tickets_url := overlay e.tickets_url p.tickets_url } :=
  mergeSchedule_eq e p

/-- C8: the schedule merge is idempotent in the parsed input — merging the
same parse twice against the same existing record equals merging it
once. -/
theorem c8_merge_idempotent (e p : MatchRecord) :
    mergeSchedule (mergeSchedule e p) p = mergeSchedule e p := by
  rw [mergeSchedule_eq (mergeSchedule e p) p, mergeSchedule_eq e p]
  simp [overlay_again, arenaKeep_again]

/-- C3: classification characterization — a record is in `finished` iff
its start parses, is at or before `now`, and either both scores are known
or the start is strictly within the last six hours; `upcoming` holds
exactly the records whose parsed start is strictly after `now`; a record
with no parseable start lands in neither bucket. -/
theorem c3_classification (now : PDateTime) (games : List MatchRecord)
    (g : MatchRecord) :
    (g ∈ (classify now games).2 ↔
      g ∈ games ∧ ∃ dt, g.start = some dt ∧ toMicro dt ≤ toMicro now ∧
        (hasBothScores g = true ∨ toMicro now - usSixHours < toMicro dt)) ∧
    (g ∈ (classify now games).1 ↔
      g ∈ games ∧ ∃ dt, g.start = some dt ∧ toMicro now < toMicro dt) ∧
    (g.start = none →
      g ∉ (classify now games).1 ∧ g ∉ (classify now games).2) := by
  have hup : g ∈ (classify now games).1 ↔ g ∈ games ∧ isUpcoming now g = true := by
    simp [classify, List.mem_mergeSort, List.mem_filter]
  have hfin : g ∈ (classify now games).2 ↔ g ∈ games ∧ isFinished now g = true := by
    simp [classify, List.mem_mergeSort, List.mem_filter]
  refine ⟨?_, ?_, ?_⟩
  · rw [hfin]
    cases hs : g.start with
    | none => simp [isFinished, hs]
    | some dt =>
      simp [isFinished, hs, Bool.and_eq_true, Bool.or_eq_true,
        decide_eq_true_eq]
  · rw [hup]
    cases hs : g.start with
    | none => simp [isUpcoming, hs]
    | some dt => simp [isUpcoming, hs, decide_eq_true_eq]
  · intro hs
    constructor
    · rw [hup]; simp [isUpcoming, hs]
    · rw [hfin]; simp [isFinished, hs]

/-- C3 witness: with `now` noon 2025-10-12, a record started one hour
earlier with no scores is finished; one started eight hours earlier with
no scores is in neither bucket; an unparseable start is in neither. -/
theorem c3_classification_witness :
    (⟨some "a", some ⟨2025, 10, 12, 11, 0, 0, 0⟩, none, none, none, none, none,
        none, none, none, none, none, none⟩ : MatchRecord) ∈
      (classify ⟨2025, 10, 12, 12, 0, 0, 0⟩
        [⟨some "a", some ⟨2025, 10, 12, 11, 0, 0, 0⟩, none, none, none, none,
          none, none, none, none, none, none, none⟩]).2 ∧
    (⟨some "b", some ⟨2025, 10, 12, 4, 0, 0, 0⟩, none, none, none, none, none,
        none, none, none, none, none, none⟩ : MatchRecord) ∉
      (classify ⟨2025, 10, 12, 12, 0, 0, 0⟩
        [⟨some "b", some ⟨2025, 10, 12, 4, 0, 0, 0⟩, none, none, none, none,
          none, none, none, none, none, none, none⟩]).2 ∧
    (⟨some "c", none, none, none, none, none, none, none, none, none, none,
        none, none⟩ : MatchRecord) ∉
      (classify ⟨2025, 10, 12, 12, 0, 0, 0⟩
        [⟨some "c", none, none, none, none, none, none, none, none, none, none,
          none, none⟩]).1 := by
  refine ⟨?_, ?_, ?_⟩
  · exact (c3_classification _ _ _).1.mpr
      ⟨by simp, ⟨2025, 10, 12, 11, 0, 0, 0⟩, rfl, by decide, Or.inr (by decide)⟩
  · intro hmem
    have h := (c3_classification _ _ _).1.mp hmem
    rcases h.2 with ⟨dt, hdt, hle, hor⟩
    cases hdt
    rcases hor with h8 | h8
    · exact absurd h8 (by decide)
    · exact absurd h8 (by decide)
  · exact ((c3_classification _ _ _).2.2 rfl).1

/-- C4: pruning keeps a record iff its start does not parse to an instant
strictly before `now - store_days`; in particular a start exactly at the
cutoff is retained and a record with no parseable start is never
pruned. -/
theorem c4_prune (now : PDateTime) (days : Int)
    (games : List (String × MatchRecord)) (gid : String) (g : MatchRecord) :
    ((gid, g) ∈ prune now days games ↔
      (gid, g) ∈ games ∧
        ¬ (∃ dt, g.start = some dt ∧
            toMicro dt < toMicro now - days * usPerDay)) ∧
    (g.start = none → (gid, g) ∈ games → (gid, g) ∈ prune now days games) ∧
    (∀ dt, g.start = some dt → toMicro dt = toMicro now - days * usPerDay →
      (gid, g) ∈ games → (gid, g) ∈ prune now days games) := by
  have hiff : (gid, g) ∈ prune now days games ↔
      (gid, g) ∈ games ∧
        ¬ (∃ dt, g.start = some dt ∧
            toMicro dt < toMicro now - days * usPerDay) := by
    cases hs : g.start with
    | none => simp [prune, List.mem_filter, hs]
    | some dt => simp [prune, List.mem_filter, hs, decide_eq_true_eq]
  refine ⟨hiff, ?_, ?_⟩
  · intro hs hmem
    exact hiff.mpr ⟨hmem, by simp [hs]⟩
  · intro dt hdt hcut hmem
    refine hiff.mpr ⟨hmem, ?_⟩
    rintro ⟨dt1, hdt1, hlt⟩
    rw [hdt] at hdt1
    cases hdt1
    omega

/-- C4 witness: with a one-day retention, a record starting exactly at the
cutoff is kept, a record one microsecond earlier is dropped, and a record
with no parseable start is kept. -/
theorem c4_prune_witness :
    ("k", (⟨some "k", some ⟨2025, 10, 11, 12, 0, 0, 0⟩, none, none, none, none,
        none, none, none, none, none, none, none⟩ : MatchRecord)) ∈
      prune ⟨2025, 10, 12, 12, 0, 0, 0⟩ 1
        [("k", ⟨some "k", some ⟨2025, 10, 11, 12, 0, 0, 0⟩, none, none, none,
          none, none, none, none, none, none, none, none⟩)] ∧
    ("d", (⟨some "d", some ⟨2025, 10, 11, 11, 59, 59, 999999⟩, none, none, none,
        none, none, none, none, none, none, none, none⟩ : MatchRecord)) ∉
      prune ⟨2025, 10, 12, 12, 0, 0, 0⟩ 1
        [("d", ⟨some "d", some ⟨2025, 10, 11, 11, 59, 59, 999999⟩, none, none,
          none, none, none, none, none, none, none, none, none⟩)] ∧
    ("n", (⟨some "n", none, none, none, none, none, none, none, none, none,
        none, none, none⟩ : MatchRecord)) ∈
      prune ⟨2025, 10, 12, 12, 0, 0, 0⟩ 1
        [("n", ⟨some "n", none, none, none, none, none, none, none, none, none,
          none, none, none⟩)] := by
  refine ⟨?_, ?_, ?_⟩
  · exact (c4_prune _ _ _ _ _).2.2 ⟨2025, 10, 11, 12, 0, 0, 0⟩ rfl (by decide)
      (by simp)
  · intro hmem
    have h := ((c4_prune _ _ _ _ _).1.mp hmem).2
    exact h ⟨⟨2025, 10, 11, 11, 59, 59, 999999⟩, rfl, by decide⟩
  · exact (c4_prune _ _ _ _ _).2.1 rfl (by simp)

/-- C6 (failing input): the start-time parser is *not* exception-free —
on a window carrying the impossible date `02-30`, `START_RE` matches and
`_guess_start_dt` calls `now.replace(month=2, day=30, ...)`, which raises
`ValueError` instead of yielding null. -/
theorem c6_start_raises :
    parseStart ⟨2025, 10, 12, 12, 0, 0, 0⟩ "PN, 02-30, 21:30".toList =
      .error "ValueError" := by rfl

/-- C7 counterexample: the snapshot dict assembled by
`_async_update_data` has no `last_finished_with_score` entry and no `live`
entry at all — the claim that every cycle's snapshot contains them fails
on any concrete snapshot. -/
theorem c7_counterexample :
    snapshotGet
        (buildSnapshot "/rungtynes" "https://zalgiris.lt/rungtynes" "t" [] []
          ⟨"href", 2, 2, true, true, ""⟩)
        "last_finished_with_score" = none ∧
    snapshotGet
        (buildSnapshot "/rungtynes" "https://zalgiris.lt/rungtynes" "t" [] []
          ⟨"href", 2, 2, true, true, ""⟩)
        "live" = none := by
  exact ⟨rfl, rfl⟩

/-- C7 (amended): the snapshot of every update cycle carries exactly the
keys `team_path`, `source_url`, `fetched_at`, `upcoming`, `finished` and
`debug`; it has no `last_finished_with_score` and no `live` entry, so the
presentation layer's corresponding sensors always read null. -/
theorem c7_snapshot_keys (tp su fa : String) (up fin : List MatchRecord)
    (dbg : ScheduleDebug) :
    (buildSnapshot tp su fa up fin dbg).map Prod.fst =
      ["team_path", "source_url", "fetched_at", "upcoming", "finished",
       "debug"] ∧
    snapshotGet (buildSnapshot tp su fa up fin dbg)
      "last_finished_with_score" = none ∧
    snapshotGet (buildSnapshot tp su fa up fin dbg) "live" = none := by
  exact ⟨rfl, rfl, rfl⟩

/-- C9 counterexample: a window holding, for the same game id, a bare
anchor first and a `?tab=media` anchor second — `_parse_info_url` returns
the bare URL, not the one with extra query parameters, because its regex
takes the leftmost anchor with no preference. -/
theorem c9_counterexample :
    parseInfoUrl "abc123"
        "href=\"/rungtynes/abc123\" x href=\"/rungtynes/abc123?tab=media\"".toList
      = "https://zalgiris.lt/rungtynes/abc123" ∧
    "https://zalgiris.lt/rungtynes/abc123" ≠
      "https://zalgiris.lt/rungtynes/abc123?tab=media" := by
  refine ⟨by rfl, by decide⟩

/-- C9 (amended): the detail-link parser returns the *first* anchor in the
window whose href contains `/rungtynes/<game_id>`, bare or not (no
preference for extra query parameters); when neither dialect holds such an
anchor it synthesizes the canonical detail URL, so the result is always a
non-null URL. -/
theorem c9_first_anchor :
    (∀ (gid : String) (w run : List Char),
      findHrefRun ("/rungtynes/" ++ gid).toList w = some run →
      parseInfoUrl gid w = urljoinBase (safeUnescape run)) ∧
    (∀ (gid : String) (w : List Char),
      findHrefRun ("/rungtynes/" ++ gid).toList w = none →
      findEscHrefRun ("/rungtynes/" ++ gid).toList w = none →
      parseInfoUrl gid w = urljoinBase ("/rungtynes/" ++ gid).toList) := by
  constructor
  · intro gid w run h
    simp only [parseInfoUrl]
    rw [h]
  · intro gid w h1 h2
    simp only [parseInfoUrl]
    rw [h1, h2]

/-- C9 witness: a window with a single parameterised anchor yields that
anchor's URL; a window with no anchor yields the synthesized canonical
URL. -/
theorem c9_first_anchor_witness :
    parseInfoUrl "abc123" "href=\"/rungtynes/abc123?tab=media\"".toList =
      "https://zalgiris.lt/rungtynes/abc123?tab=media" ∧
    parseInfoUrl "abc123" "no anchors".toList =
      "https://zalgiris.lt/rungtynes/abc123" := by
  constructor
  · have h := c9_first_anchor.1 "abc123"
      "href=\"/rungtynes/abc123?tab=media\"".toList
      "/rungtynes/abc123?tab=media".toList (by rfl)
    exact h.trans (by decide)
  · have h := c9_first_anchor.2 "abc123" "no anchors".toList (by rfl) (by rfl)
    exact h.trans (by decide)

/-- C10: when the two score tokens scraped from a window are the same
numeric string (a tied score), the order-keeping deduplication collapses
them to one, fewer than two numbers remain, and `_parse_scores` reports no
score at all — an equal score is never produced from such a window. -/
theorem collectNums_single_short (t : List Char) :
    (collectNums [t] []).length ≤ 1 := by
  by_cases hd : isDigitToken (stripToken (nbspToSpace t)) = true
  · simp [collectNums, hd]
  · simp [collectNums, hd]

theorem c10_tied_score_dropped (w : List Char) (s : List Char)
    (hraw : rawScoreTokens w = [s, s]) (hnum : isDigitToken s = true) :
    parseScores w = (none, none) := by
  have hded : dedupTokens [] [s, s] = [s] := by
    simp [dedupTokens]
  simp only [parseScores, hraw, hded]
  have h1 := collectNums_single_short s
  match hc : collectNums [s] [] with
  | [] => rfl
  | [a] => rfl
  | a :: b :: t =>
    rw [hc] at h1
    simp at h1

/-- C10 witness: a window showing the tied score 80–80 in the HTML dialect
produces the token list `["80", "80"]` and a null score pair. -/
theorem c10_tied_score_dropped_witness :
    rawScoreTokens "tabular-nums>80</p>tabular-nums>80</p>".toList =
      ["80".toList, "80".toList] ∧
    parseScores "tabular-nums>80</p>tabular-nums>80</p>".toList =
      (none, none) := by
  constructor
  · rfl
  · exact c10_tied_score_dropped _ "80".toList (by rfl) (by rfl)

end ZalgirisMatches
